import Mathlib

/-!
Shallow embedding of src/ParticleRetainedAtomic.h.

The record region of type T is modelled as a list of bytes (List Nat, each
byte < 256 where it matters).  uint16_t and uint32_t values are modelled as
Nat with explicit reduction modulo 2^16 / 2^32 at the points where the C
arithmetic overflows or masks.  The two SavePage objects hold references to
retained memory; here a SavePage is the value of that memory (record bytes,
sequence number, checksum), and the store carries its two pages plus a
boolean recording which page the m_scratchpad pointer designates.
-/

/-- The modulus of uint32_t arithmetic. -/
def U32 : Nat := 2 ^ 32

/-- Bitwise complement of a uint32_t value (the C expression ~x). -/
def u32not (x : Nat) : Nat := (U32 - 1) - x % U32

/-- One page: the record bytes (m_data), the uint16_t sequence number
(m_seqNum) and the uint32_t checksum (m_checksum) it references. -/
structure SavePage where
  m_data : List Nat
  m_seqNum : Nat
  m_checksum : Nat
deriving DecidableEq

/-- The running uint32_t byte sum of the do-while loop in
SavePage::calculateChecksum: sum += *(p++) with uint32 wraparound. -/
def sumBytes (l : List Nat) : Nat := l.foldl (fun s b => (s + b) % U32) 0

/-- The uint32_t sum accumulated by SavePage::calculateChecksum before the
final complement: the byte sum, plus (0xff00 & m_seqNum) >> 8, plus
m_seqNum & 0xff, every addition performed modulo 2^32. -/
def rawSum (d : List Nat) (n : Nat) : Nat :=
  ((sumBytes d + ((0xff00 &&& n) >>> 8)) % U32 + (n &&& 0xff)) % U32

/-- SavePage::calculateChecksum: return ~sum. -/
def SavePage.calculateChecksum (p : SavePage) : Nat :=
  u32not (rawSum p.m_data p.m_seqNum)

/-- SavePage::init: m_data = initData; m_seqNum = 1 (checksum untouched). -/
def SavePage.init (p : SavePage) (initData : List Nat) : SavePage :=
  { p with m_data := initData, m_seqNum := 1 }

/-- SavePage::clearChecksum: m_checksum = ~m_checksum. -/
def SavePage.clearChecksum (p : SavePage) : SavePage :=
  { p with m_checksum := u32not p.m_checksum }

/-- SavePage::isValid: calculateChecksum() == m_checksum. -/
def SavePage.isValid (p : SavePage) : Bool :=
  p.calculateChecksum == p.m_checksum

/-- SavePage::writeChecksum: m_checksum = calculateChecksum(). -/
def SavePage.writeChecksum (p : SavePage) : SavePage :=
  { p with m_checksum := p.calculateChecksum }

/-- SavePage::operator= on distinct pages (the only way save() uses it; the
self-assignment guard never fires there): copy m_data and m_checksum
verbatim, and set m_seqNum to rhs.m_seqNum + 1, or to 1 when rhs.m_seqNum is
UINT16_MAX, because a zero sequence number is reserved. -/
def SavePage.assignFrom (_self rhs : SavePage) : SavePage :=
  { m_data := rhs.m_data,
    m_seqNum := if rhs.m_seqNum = 65535 then 1 else rhs.m_seqNum + 1,
    m_checksum := rhs.m_checksum }

/-- The retained metadata record ParticleRetainedAtomicData_t. -/
structure ParticleRetainedAtomicData_t where
  seqNumA : Nat
  seqNumB : Nat
  checksumA : Nat
  checksumB : Nat
deriving DecidableEq

/-- The store: the two pages m_a, m_b, and which of them the m_scratchpad
pointer currently designates (m_saved designates the other one). -/
structure ParticleRetainedAtomic where
  m_a : SavePage
  m_b : SavePage
  scratchIsA : Bool
deriving DecidableEq

/-- The page designated by the m_scratchpad pointer. -/
def m_scratchpad (s : ParticleRetainedAtomic) : SavePage :=
  if s.scratchIsA then s.m_a else s.m_b

/-- The page designated by the m_saved pointer. -/
def m_saved (s : ParticleRetainedAtomic) : SavePage :=
  if s.scratchIsA then s.m_b else s.m_a

/-- ParticleRetainedAtomic::save(): checksum the scratchpad, copy it onto
the saved page (operator=, incrementing the sequence number), invalidate
that copy, then swap the two role pointers. -/
def save (s : ParticleRetainedAtomic) : ParticleRetainedAtomic :=
  let scr := (m_scratchpad s).writeChecksum
  let sav := ((m_saved s).assignFrom scr).clearChecksum
  if s.scratchIsA then ⟨scr, sav, false⟩ else ⟨sav, scr, true⟩

/-- The role-resolution decision table of the constructor body (everything
before the final save() call), producing the pages and the scratchpad
designation. -/
def recoverPages (a b : SavePage) (defaultValue : List Nat) :
    ParticleRetainedAtomic :=
  if a.isValid then
    if b.isValid then
      if a.m_seqNum > b.m_seqNum ∨ (b.m_seqNum = 65535 ∧ a.m_seqNum = 1) then
        ⟨a, b, true⟩
      else if b.m_seqNum > a.m_seqNum ∨ (a.m_seqNum = 65535 ∧ b.m_seqNum = 1) then
        ⟨a, b, false⟩
      else
        ⟨a.init defaultValue, b, true⟩
    else ⟨a, b, true⟩
  else if b.isValid then ⟨a, b, false⟩
  else ⟨a.init defaultValue, b, true⟩

/-- ParticleRetainedAtomic::ParticleRetainedAtomic: build the two pages over
the given regions and metadata, resolve the roles, then save(). -/
def construct (retainedPageA retainedPageB : List Nat)
    (retainedData : ParticleRetainedAtomicData_t)
    (defaultValue : List Nat) : ParticleRetainedAtomic :=
  save (recoverPages
    ⟨retainedPageA, retainedData.seqNumA, retainedData.checksumA⟩
    ⟨retainedPageB, retainedData.seqNumB, retainedData.checksumB⟩
    defaultValue)

/-- ParticleRetainedAtomic::getScratchpad (also operator->): the record
bytes of the scratchpad page. -/
def getScratchpad (s : ParticleRetainedAtomic) : List Nat :=
  (m_scratchpad s).m_data

/-- The caller writing a record value through the mutable reference returned
by getScratchpad: the scratchpad page's record bytes become r. -/
def setScratchpad (s : ParticleRetainedAtomic) (r : List Nat) :
    ParticleRetainedAtomic :=
  if s.scratchIsA then { s with m_a := { s.m_a with m_data := r } }
  else { s with m_b := { s.m_b with m_data := r } }

/-- Constructing a new store over the same two record regions and the same
metadata left behind by a previous store. -/
def reopen (s : ParticleRetainedAtomic) (d : List Nat) :
    ParticleRetainedAtomic :=
  construct s.m_a.m_data s.m_b.m_data
    ⟨s.m_a.m_seqNum, s.m_b.m_seqNum, s.m_a.m_checksum, s.m_b.m_checksum⟩ d

/-! ### Basic arithmetic facts about the checksum -/

lemma U32_eq : U32 = 4294967296 := by norm_num [U32]

lemma rawSum_lt (d : List Nat) (n : Nat) : rawSum d n < U32 := by
  have h : 0 < U32 := by norm_num [U32]
  exact Nat.mod_lt _ h

lemma u32not_lt (x : Nat) : u32not x < U32 := by
  have h : x % U32 ≤ U32 - 1 := by
    have := Nat.mod_lt x (show 0 < U32 by norm_num [U32])
    omega
  simp only [u32not, U32_eq] at *
  omega

lemma u32not_u32not {x : Nat} (h : x < U32) : u32not (u32not x) = x := by
  simp only [u32not, U32_eq] at *
  omega

lemma sumBytes_go (l : List Nat) :
    ∀ a : Nat, a < U32 →
      l.foldl (fun s b => (s + b) % U32) a = (a + l.sum) % U32 := by
  induction l with
  | nil =>
    intro a ha
    simp [Nat.mod_eq_of_lt ha]
  | cons x t ih =>
    intro a ha
    have hlt : (a + x) % U32 < U32 :=
      Nat.mod_lt _ (show 0 < U32 by norm_num [U32])
    simp only [List.foldl_cons, List.sum_cons]
    rw [ih _ hlt, Nat.mod_add_mod]
    ring_nf

lemma sumBytes_eq (l : List Nat) : sumBytes l = l.sum % U32 := by
  have := sumBytes_go l 0 (by norm_num [U32])
  simpa [sumBytes] using this

lemma calculateChecksum_eq (p : SavePage) :
    p.calculateChecksum = (U32 - 1) - rawSum p.m_data p.m_seqNum := by
  have h := rawSum_lt p.m_data p.m_seqNum
  simp [SavePage.calculateChecksum, u32not, Nat.mod_eq_of_lt h]

lemma isValid_iff (p : SavePage) :
    p.isValid = true ↔ (U32 - 1) - rawSum p.m_data p.m_seqNum = p.m_checksum := by
  simp [SavePage.isValid, calculateChecksum_eq]

lemma writeChecksum_isValid (p : SavePage) : (p.writeChecksum).isValid = true := by
  simp [SavePage.isValid, SavePage.writeChecksum, SavePage.calculateChecksum]

/-! ### Unfolding lemmas for save() -/

lemma m_saved_save (s : ParticleRetainedAtomic) :
    m_saved (save s) = (m_scratchpad s).writeChecksum := by
  cases h : s.scratchIsA <;> simp [save, m_saved, m_scratchpad, h]

lemma m_scratchpad_save (s : ParticleRetainedAtomic) :
    m_scratchpad (save s)
      = ((m_saved s).assignFrom ((m_scratchpad s).writeChecksum)).clearChecksum := by
  cases h : s.scratchIsA <;> simp [save, m_saved, m_scratchpad, h]

lemma m_scratchpad_save_fields (s : ParticleRetainedAtomic) :
    m_scratchpad (save s)
      = ⟨(m_scratchpad s).m_data,
         (if (m_scratchpad s).m_seqNum = 65535 then 1
          else (m_scratchpad s).m_seqNum + 1),
         rawSum (m_scratchpad s).m_data (m_scratchpad s).m_seqNum⟩ := by
  rw [m_scratchpad_save]
  have h := rawSum_lt (m_scratchpad s).m_data (m_scratchpad s).m_seqNum
  simp [SavePage.clearChecksum, SavePage.assignFrom, SavePage.writeChecksum,
    SavePage.calculateChecksum, u32not_u32not h]

lemma getScratchpad_save (s : ParticleRetainedAtomic) :
    getScratchpad (save s) = getScratchpad s := by
  simp [getScratchpad, m_scratchpad_save_fields]

lemma saved_save_isValid (s : ParticleRetainedAtomic) :
    (m_saved (save s)).isValid = true := by
  rw [m_saved_save]; exact writeChecksum_isValid _

lemma getScratchpad_setScratchpad (s : ParticleRetainedAtomic) (r : List Nat) :
    getScratchpad (setScratchpad s r) = r := by
  cases h : s.scratchIsA <;> simp [getScratchpad, setScratchpad, m_scratchpad, h]

lemma save_fields (s : ParticleRetainedAtomic) :
    (save s).m_a.m_data = getScratchpad s ∧
    (save s).m_b.m_data = getScratchpad s ∧
    (save s).m_a.m_seqNum ≠ (save s).m_b.m_seqNum ∧
    ((save s).m_a.isValid = true ∨ (save s).m_b.isValid = true) := by
  cases h : s.scratchIsA with
  | false =>
    refine ⟨?_, ?_, ?_, Or.inr ?_⟩
    · simp [save, m_saved, m_scratchpad, getScratchpad, h, SavePage.assignFrom,
        SavePage.clearChecksum, SavePage.writeChecksum]
    · simp [save, m_saved, m_scratchpad, getScratchpad, h, SavePage.assignFrom,
        SavePage.clearChecksum, SavePage.writeChecksum]
    · simp only [save, h, Bool.false_eq_true, if_false]
      simp [SavePage.assignFrom, SavePage.clearChecksum, SavePage.writeChecksum]
      split <;> omega
    · have h2 : (save s).m_b = m_saved (save s) := by simp [m_saved, save, h]
      rw [h2]; exact saved_save_isValid s
  | true =>
    refine ⟨?_, ?_, ?_, Or.inl ?_⟩
    · simp [save, m_saved, m_scratchpad, getScratchpad, h, SavePage.assignFrom,
        SavePage.clearChecksum, SavePage.writeChecksum]
    · simp [save, m_saved, m_scratchpad, getScratchpad, h, SavePage.assignFrom,
        SavePage.clearChecksum, SavePage.writeChecksum]
    · simp only [save, h, if_true]
      simp [SavePage.assignFrom, SavePage.clearChecksum, SavePage.writeChecksum]
      split <;> omega
    · have h2 : (save s).m_a = m_saved (save s) := by simp [m_saved, save, h]
      rw [h2]; exact saved_save_isValid s

lemma getScratchpad_save_of_data {s : ParticleRetainedAtomic} {r : List Nat}
    (h1 : s.m_a.m_data = r) (h2 : s.m_b.m_data = r) :
    getScratchpad (save s) = r := by
  rw [getScratchpad_save]
  cases h : s.scratchIsA <;> simp [getScratchpad, m_scratchpad, h, h1, h2]

lemma getScratchpad_construct_eq {dA dB r d : List Nat}
    {md : ParticleRetainedAtomicData_t}
    (hval : (⟨dA, md.seqNumA, md.checksumA⟩ : SavePage).isValid = true ∨
            (⟨dB, md.seqNumB, md.checksumB⟩ : SavePage).isValid = true)
    (hseq : md.seqNumA ≠ md.seqNumB)
    (h1 : dA = r) (h2 : dB = r) :
    getScratchpad (construct dA dB md d) = r := by
  unfold construct recoverPages
  split_ifs with hA hB hc1 hc2 hB2 <;>
    first
      | exact getScratchpad_save_of_data (by simpa using h1) (by simpa using h2)
      | (exfalso; simp only [not_or, not_lt] at hc1 hc2; omega)
      | (exfalso; rcases hval with hv | hv <;> simp_all)

/-! ### Claim theorems -/

/-- Claim C1 (round-trip): writing any record r into the scratchpad and
calling save(), then constructing a new store over the same two record
regions and the same metadata with any default value, yields a store whose
scratchpad record equals r. -/
theorem c1_round_trip (s : ParticleRetainedAtomic) (r d : List Nat) :
    getScratchpad (reopen (save (setScratchpad s r)) d) = r := by
  obtain ⟨hda, hdb, hseq, hval⟩ := save_fields (setScratchpad s r)
  rw [getScratchpad_setScratchpad] at hda hdb
  exact getScratchpad_construct_eq hval hseq hda hdb

/-- Claim C10 (frame effect of save): the record bytes visible through
getScratchpad immediately after save() equal the bytes visible immediately
before the call. -/
theorem c10_save_preserves_visible_record (s : ParticleRetainedAtomic) :
    getScratchpad (save s) = getScratchpad s :=
  getScratchpad_save s

/-- Claim C5 (sequence monotonicity with wraparound): the page copy
operation sets the destination sequence number to the source sequence number
plus 1, except that a source sequence number of 65535 wraps to 1; the
sequence number written by a commit onto the copied page follows the same
rule, and is never 0. -/
theorem c5_sequence_monotonicity (p q : SavePage) (s : ParticleRetainedAtomic) :
    (p.assignFrom q).m_seqNum
        = (if q.m_seqNum = 65535 then 1 else q.m_seqNum + 1) ∧
    (p.assignFrom q).m_seqNum ≠ 0 ∧
    (m_scratchpad (save s)).m_seqNum
        = (if (m_scratchpad s).m_seqNum = 65535 then 1
           else (m_scratchpad s).m_seqNum + 1) := by
  refine ⟨rfl, ?_, ?_⟩
  · simp only [SavePage.assignFrom]
    split <;> omega
  · rw [m_scratchpad_save_fields]

/-- Claim C8 (invalidation guarantee): on any page with a valid checksum,
clearChecksum (which stores the complement of the current checksum) makes
isValid return false. -/
theorem c8_clearChecksum_invalidates (p : SavePage) (h : p.isValid = true) :
    (p.clearChecksum).isValid = false := by
  rw [isValid_iff] at h
  have hrs := rawSum_lt p.m_data p.m_seqNum
  have hiff : (p.clearChecksum).isValid = true ↔
      (U32 - 1) - rawSum p.m_data p.m_seqNum = u32not p.m_checksum := by
    simpa [SavePage.clearChecksum] using isValid_iff (p.clearChecksum)
  rcases Bool.eq_false_or_eq_true ((p.clearChecksum).isValid) with ht | hf
  · exfalso
    have := hiff.mp ht
    simp only [u32not, U32_eq] at this h hrs
    omega
  · exact hf

/-- Concrete witness for C8: a small valid page is invalidated by
clearChecksum. -/
theorem c8_clearChecksum_invalidates_witness :
    (⟨[1, 2], 1, 4294967291⟩ : SavePage).isValid = true ∧
    ((⟨[1, 2], 1, 4294967291⟩ : SavePage).clearChecksum).isValid = false :=
  ⟨by decide, c8_clearChecksum_invalidates ⟨[1, 2], 1, 4294967291⟩ (by decide)⟩

/-- Claim C9 (sequence-ambiguity fallback): when at construction both pages
are valid and carry the same sequence number, page A is reinitialized from
the default value; construction completes (totally, raising nothing) and
both the scratchpad record and the committed (saved) record equal the
default value. -/
theorem c9_tie_falls_back_to_default (dA dB d : List Nat)
    (md : ParticleRetainedAtomicData_t)
    (ha : (⟨dA, md.seqNumA, md.checksumA⟩ : SavePage).isValid = true)
    (hb : (⟨dB, md.seqNumB, md.checksumB⟩ : SavePage).isValid = true)
    (hseq : md.seqNumA = md.seqNumB) :
    getScratchpad (construct dA dB md d) = d ∧
    (m_saved (construct dA dB md d)).m_data = d := by
  have hc1 : ¬((⟨dA, md.seqNumA, md.checksumA⟩ : SavePage).m_seqNum
        > (⟨dB, md.seqNumB, md.checksumB⟩ : SavePage).m_seqNum ∨
      ((⟨dB, md.seqNumB, md.checksumB⟩ : SavePage).m_seqNum = 65535 ∧
        (⟨dA, md.seqNumA, md.checksumA⟩ : SavePage).m_seqNum = 1)) := by
    simp only [not_or, not_lt]
    omega
  have hc2 : ¬((⟨dB, md.seqNumB, md.checksumB⟩ : SavePage).m_seqNum
        > (⟨dA, md.seqNumA, md.checksumA⟩ : SavePage).m_seqNum ∨
      ((⟨dA, md.seqNumA, md.checksumA⟩ : SavePage).m_seqNum = 65535 ∧
        (⟨dB, md.seqNumB, md.checksumB⟩ : SavePage).m_seqNum = 1)) := by
    simp only [not_or, not_lt]
    omega
  unfold construct recoverPages
  rw [if_pos ha, if_pos hb, if_neg hc1, if_neg hc2]
  constructor
  · rw [getScratchpad_save]
    simp [getScratchpad, m_scratchpad, SavePage.init]
  · rw [m_saved_save]
    simp [m_scratchpad, SavePage.writeChecksum, SavePage.init]

/-- Concrete witness for C9: two valid pages with equal sequence numbers;
after construction both visible records equal the default. -/
theorem c9_tie_falls_back_to_default_witness :
    (⟨[5], 3, 4294967287⟩ : SavePage).isValid = true ∧
    (getScratchpad (construct [5] [7] ⟨3, 3, 4294967287, 4294967285⟩ [42]) = [42] ∧
     (m_saved (construct [5] [7] ⟨3, 3, 4294967287, 4294967285⟩ [42])).m_data = [42]) :=
  ⟨by decide,
   c9_tie_falls_back_to_default [5] [7] [42] ⟨3, 3, 4294967287, 4294967285⟩
     (by decide) (by decide) rfl⟩

/-- Claim C2 evaluated at its failing input: both pages are valid, page A
has sequence number 65535 and page B has sequence number 1.  The claim says
B must be treated as newer (B committed), but the code's first comparison
65535 > 1 fires before the wraparound clause of the second branch can, so
A's record is the one committed: both the committed page and the scratchpad
hold A's record bytes [10], not B's [20]. -/
theorem c2_wrap_tiebreak_failing_input :
    (⟨[10], 65535, 4294966775⟩ : SavePage).isValid = true ∧
    (⟨[20], 1, 4294967274⟩ : SavePage).isValid = true ∧
    getScratchpad (construct [10] [20] ⟨65535, 1, 4294966775, 4294967274⟩ [30])
      = [10] ∧
    (m_saved (construct [10] [20] ⟨65535, 1, 4294966775, 4294967274⟩ [30])).m_data
      = [10] := by
  refine ⟨by decide, by decide, by decide, by decide⟩

/-! ### The checksum definition stated the way the spec words it -/

lemma shiftRight_land_distrib (a b k : Nat) :
    (a &&& b) >>> k = (a >>> k) &&& (b >>> k) := by
  apply Nat.eq_of_testBit_eq
  intro i
  simp [Nat.testBit_shiftRight, Nat.testBit_and]

lemma land_ff (n : Nat) : n &&& 0xff = n % 256 := by
  have h := Nat.and_pow_two_sub_one_eq_mod n 8
  norm_num at h
  exact h

lemma high_byte_eq (n : Nat) (h : n < 65536) : (0xff00 &&& n) >>> 8 = n / 256 := by
  rw [shiftRight_land_distrib]
  have h1 : (0xff00 : Nat) >>> 8 = 0xff := by decide
  rw [h1, Nat.and_comm, land_ff, Nat.shiftRight_eq_div_pow]
  norm_num
  omega

/-- The checksum function as the specification describes it: the bitwise
complement of the sum, modulo 2^32, of every byte in the record region plus
the high byte and the low byte of the 16-bit sequence number, the two
sequence-number bytes added separately. -/
def calculateChecksum_spec (p : SavePage) : Nat :=
  (U32 - 1) - ((p.m_data.sum + p.m_seqNum / 256 + p.m_seqNum % 256) % U32)

/-- Claim C6 (checksum definition): for every page whose sequence number is
a 16-bit value, the code's calculateChecksum agrees with the checksum
function as worded by the specification. -/
theorem c6_checksum_definition (p : SavePage) (h : p.m_seqNum < 65536) :
    p.calculateChecksum = calculateChecksum_spec p := by
  rw [calculateChecksum_eq, calculateChecksum_spec]
  unfold rawSum
  rw [sumBytes_eq, high_byte_eq _ h, land_ff, Nat.mod_add_mod]
  simp only [U32_eq]
  omega

/-- Concrete witness for C6 at a two-byte sequence number. -/
theorem c6_checksum_definition_witness :
    (513 : Nat) < 65536 ∧
    (⟨[1, 2, 3], 513, 0⟩ : SavePage).calculateChecksum
      = calculateChecksum_spec ⟨[1, 2, 3], 513, 0⟩ :=
  ⟨by decide, c6_checksum_definition ⟨[1, 2, 3], 513, 0⟩ (by decide)⟩

lemma sum_set_add (l : List Nat) :
    ∀ (i : Nat) (h : i < l.length) (b : Nat),
      (l.set i b).sum + l.get ⟨i, h⟩ = l.sum + b := by
  induction l with
  | nil =>
    intro i h
    simp at h
  | cons x t ih =>
    intro i h b
    cases i with
    | zero =>
      simp only [List.set, List.sum_cons, List.get]
      omega
    | succ j =>
      simp only [List.set, List.sum_cons, List.get]
      have := ih j (by simpa using h) b
      omega

/-- Claim C7 (corruption detection): on a page whose checksum is valid,
replacing any single record byte by a different byte value, without touching
the stored checksum, makes isValid return false. -/
theorem c7_corruption_detection (p : SavePage) (i b : Nat)
    (hi : i < p.m_data.length)
    (hbytes : ∀ x ∈ p.m_data, x < 256) (hblt : b < 256)
    (hne : b ≠ p.m_data.get ⟨i, hi⟩)
    (hv : p.isValid = true) :
    (SavePage.mk (p.m_data.set i b) p.m_seqNum p.m_checksum).isValid = false := by
  rw [isValid_iff] at hv
  have hold : p.m_data.get ⟨i, hi⟩ < 256 := hbytes _ (List.get_mem _ _ _)
  have hsum := sum_set_add p.m_data i hi b
  rcases Bool.eq_false_or_eq_true
      ((SavePage.mk (p.m_data.set i b) p.m_seqNum p.m_checksum).isValid) with ht | hf
  · exfalso
    rw [isValid_iff] at ht
    have h1 := rawSum_lt p.m_data p.m_seqNum
    have h2 := rawSum_lt (p.m_data.set i b) p.m_seqNum
    have heq : rawSum (p.m_data.set i b) p.m_seqNum
        = rawSum p.m_data p.m_seqNum := by
      simp only [U32_eq] at h1 h2 ht hv ⊢
      omega
    unfold rawSum at heq
    rw [sumBytes_eq, sumBytes_eq] at heq
    simp only [U32_eq] at heq
    exact hne (by omega)
  · exact hf

/-- Concrete witness for C7: flipping byte 0 of a valid two-byte page from 1
to 7 invalidates it. -/
theorem c7_corruption_detection_witness :
    (⟨[1, 2], 1, 4294967291⟩ : SavePage).isValid = true ∧
    (SavePage.mk (([1, 2] : List Nat).set 0 7) 1 4294967291).isValid = false :=
  ⟨by decide,
   c7_corruption_detection ⟨[1, 2], 1, 4294967291⟩ 0 7 (by decide) (by decide)
     (by decide) (by decide) (by decide)⟩

/-- Claim C3, amended: after every completed save() the newly committed
(saved) page is valid, and the new scratchpad page (the invalidated copy) is
valid exactly when the pre-complement checksum sums over the record for the
old and for the incremented sequence number add to 2^32 - 1, in which case
both pages are valid. -/
theorem c3_single_valid_amended (s : ParticleRetainedAtomic) :
    (m_saved (save s)).isValid = true ∧
    ((m_scratchpad (save s)).isValid = true ↔
      rawSum (m_scratchpad s).m_data (m_scratchpad s).m_seqNum
        + rawSum (m_scratchpad s).m_data
            (if (m_scratchpad s).m_seqNum = 65535 then 1
             else (m_scratchpad s).m_seqNum + 1)
        = U32 - 1) := by
  refine ⟨saved_save_isValid s, ?_⟩
  rw [m_scratchpad_save_fields, isValid_iff]
  have h1 := rawSum_lt (m_scratchpad s).m_data (m_scratchpad s).m_seqNum
  have h2 := rawSum_lt (m_scratchpad s).m_data
    (if (m_scratchpad s).m_seqNum = 65535 then 1
     else (m_scratchpad s).m_seqNum + 1)
  simp only [U32_eq] at h1 h2 ⊢
  omega

/-- A record region of 8421505 bytes whose byte sum is 2^31 - 2, crafted so
that the complemented checksum written by clearChecksum accidentally equals
the checksum of the copied page with its incremented sequence number. -/
def bigD : List Nat := 126 :: List.replicate 8421504 255

lemma bigD_sum : bigD.sum = 2147483646 := by
  have h : (List.replicate 8421504 255).sum = 8421504 * 255 :=
    List.sum_const_nat 8421504 255
  rw [bigD, List.sum_cons, h]

lemma hb_small (n : Nat) (h : n < 256) : (0xff00 &&& n) >>> 8 = 0 := by
  rw [high_byte_eq n (by omega)]
  omega

lemma sumBytes_bigD : sumBytes bigD = 2147483646 := by
  rw [sumBytes_eq, bigD_sum, U32_eq]

lemma rawSum_eq_of_sumBytes {d : List Nat} {n s : Nat} (h : sumBytes d = s) :
    rawSum d n
      = ((s + ((0xff00 &&& n) >>> 8)) % U32 + (n &&& 0xff)) % U32 := by
  rw [rawSum, h]

lemma rawSum_bigD_1 : rawSum bigD 1 = 2147483647 := by
  rw [rawSum_eq_of_sumBytes sumBytes_bigD, hb_small 1 (by norm_num), land_ff,
    U32_eq]

lemma rawSum_bigD_2 : rawSum bigD 2 = 2147483648 := by
  rw [rawSum_eq_of_sumBytes sumBytes_bigD, hb_small 2 (by norm_num), land_ff,
    U32_eq]

lemma save_scratch_valid_iff (s : ParticleRetainedAtomic) :
    (m_scratchpad (save s)).isValid = true ↔
      rawSum (m_scratchpad s).m_data (m_scratchpad s).m_seqNum
        + rawSum (m_scratchpad s).m_data
            (if (m_scratchpad s).m_seqNum = 65535 then 1
             else (m_scratchpad s).m_seqNum + 1)
        = U32 - 1 := by
  rw [m_scratchpad_save_fields, isValid_iff]
  have h1 := rawSum_lt (m_scratchpad s).m_data (m_scratchpad s).m_seqNum
  have h2 := rawSum_lt (m_scratchpad s).m_data
    (if (m_scratchpad s).m_seqNum = 65535 then 1
     else (m_scratchpad s).m_seqNum + 1)
  simp only [U32_eq] at h1 h2 ⊢
  omega

lemma degenerate_both_valid (c : Nat) (q : SavePage) :
    (save ⟨⟨bigD, 1, c⟩, q, true⟩).m_a.isValid = true ∧
    (save ⟨⟨bigD, 1, c⟩, q, true⟩).m_b.isValid = true := by
  constructor
  · have h : (save ⟨⟨bigD, 1, c⟩, q, true⟩).m_a
        = (⟨bigD, 1, c⟩ : SavePage).writeChecksum := by
      simp [save, m_scratchpad, m_saved]
    rw [h]
    exact writeChecksum_isValid _
  · have h2 : (save ⟨⟨bigD, 1, c⟩, q, true⟩).m_b
        = m_scratchpad (save ⟨⟨bigD, 1, c⟩, q, true⟩) := by
      simp [save, m_scratchpad]
    rw [h2]
    refine (save_scratch_valid_iff _).mpr ?_
    simp [m_scratchpad]
    rw [rawSum_bigD_1, rawSum_bigD_2, U32_eq]

/-- Counterexample to claim C3 as stated: a store whose scratchpad record is
the crafted big record; after the completed save() call both underlying
pages satisfy isValid, so it is not the case that exactly one does. -/
theorem c3_single_valid_counterexample :
    (save ⟨⟨bigD, 1, 0⟩, ⟨[], 0, 0⟩, true⟩).m_a.isValid = true ∧
    (save ⟨⟨bigD, 1, 0⟩, ⟨[], 0, 0⟩, true⟩).m_b.isValid = true :=
  degenerate_both_valid 0 ⟨[], 0, 0⟩

/-- Claim C4, amended: when neither page is valid at construction, page A is
initialized from the default and committed; afterwards the scratchpad record
equals the default and the committed (saved) page is valid, while the other
page is valid exactly when the pre-complement checksum sums of the default
record at sequence numbers 1 and 2 add to 2^32 - 1; construction is total
and returns no error. -/
theorem c4_double_invalid_amended (dA dB d : List Nat)
    (md : ParticleRetainedAtomicData_t)
    (ha : (⟨dA, md.seqNumA, md.checksumA⟩ : SavePage).isValid = false)
    (hb : (⟨dB, md.seqNumB, md.checksumB⟩ : SavePage).isValid = false) :
    getScratchpad (construct dA dB md d) = d ∧
    (m_saved (construct dA dB md d)).isValid = true ∧
    ((m_scratchpad (construct dA dB md d)).isValid = true ↔
      rawSum d 1 + rawSum d 2 = U32 - 1) := by
  have ha2 : ¬((⟨dA, md.seqNumA, md.checksumA⟩ : SavePage).isValid = true) := by
    simp [ha]
  have hb2 : ¬((⟨dB, md.seqNumB, md.checksumB⟩ : SavePage).isValid = true) := by
    simp [hb]
  unfold construct recoverPages
  rw [if_neg ha2, if_neg hb2]
  refine ⟨?_, saved_save_isValid _, ?_⟩
  · rw [getScratchpad_save]
    simp [getScratchpad, m_scratchpad, SavePage.init]
  · have h3 := save_scratch_valid_iff
      ⟨(⟨dA, md.seqNumA, md.checksumA⟩ : SavePage).init d,
       ⟨dB, md.seqNumB, md.checksumB⟩, true⟩
    simpa [m_scratchpad, SavePage.init] using h3

/-- Concrete witness for the amended C4: two deliberately invalid pages and
default record [9]; the degenerate checksum coincidence does not occur, so
afterwards the scratchpad holds [9], the saved page is valid and the other
page is not. -/
theorem c4_double_invalid_witness :
    (⟨[0], (0 : Nat), (0 : Nat)⟩ : SavePage).isValid = false ∧
    (getScratchpad (construct [0] [0] ⟨0, 0, 0, 0⟩ [9]) = [9] ∧
     (m_saved (construct [0] [0] ⟨0, 0, 0, 0⟩ [9])).isValid = true ∧
     ((m_scratchpad (construct [0] [0] ⟨0, 0, 0, 0⟩ [9])).isValid = true ↔
       rawSum [9] 1 + rawSum [9] 2 = U32 - 1)) :=
  ⟨by decide,
   c4_double_invalid_amended [0] [0] [9] ⟨0, 0, 0, 0⟩ (by decide) (by decide)⟩

/-- Counterexample to claim C4 as stated: with both checksums deliberately
wrong and the crafted big record as the default value, construction leaves
BOTH pages valid, not exactly one. -/
theorem c4_double_invalid_counterexample :
    (construct [0] [0] ⟨0, 0, 0, 0⟩ bigD).m_a.isValid = true ∧
    (construct [0] [0] ⟨0, 0, 0, 0⟩ bigD).m_b.isValid = true := by
  have ha2 : ¬((⟨[0], (⟨0, 0, 0, 0⟩ : ParticleRetainedAtomicData_t).seqNumA,
      (⟨0, 0, 0, 0⟩ : ParticleRetainedAtomicData_t).checksumA⟩ : SavePage).isValid
        = true) := by decide
  have hb2 : ¬((⟨[0], (⟨0, 0, 0, 0⟩ : ParticleRetainedAtomicData_t).seqNumB,
      (⟨0, 0, 0, 0⟩ : ParticleRetainedAtomicData_t).checksumB⟩ : SavePage).isValid
        = true) := by decide
  have h : construct [0] [0] ⟨0, 0, 0, 0⟩ bigD
      = save ⟨⟨bigD, 1, 0⟩, ⟨[0], 0, 0⟩, true⟩ := by
    unfold construct recoverPages
    rw [if_neg ha2, if_neg hb2]
    rfl
  rw [h]
  exact degenerate_both_valid 0 ⟨[0], 0, 0⟩
